import Mathlib

/-!
Verification of the build-info detection pipeline (the `Project` staging
controller in `src/unnamed/part_000`, with the build-system detector shape
taken from `src/packages/build-info/src/build-systems/buck.ts`).

The embedding has two layers:

* a pure layer for the detection primitives — upward marker-file search,
  build-system detector runs, the relevance resolver, path resolution in the
  `Project` constructor;
* a state-passing layer for the five memoized stage accessors
  (`detectPackageManager`, `detectWorkspaces`, `detectBuildSystem`,
  `detectFrameworks`, `getBuildSettings`).  Asynchronous detection calls are
  oracles (`Except`-valued inputs); `try`/`catch` blocks in the source become
  matches on those `Except` values.  Each accessor returns
  `Except Err α × ProjState` so that a hypothetical uncaught throw would be
  visible as an `Except.error` result.
-/

/-- Error values thrown by external collaborators (filesystem, detection
logic).  The payload is irrelevant to the control flow. -/
abbrev Err := String

/-- Tri-state stage result: `unset` models the `undefined` field before the
stage ran, `set v` models a stored value (which may itself be `null`/empty). -/
inductive Tri (α : Type) where
  | unset : Tri α
  | set (a : α) : Tri α
deriving DecidableEq

/-- Package-manager descriptor (`PkgManagerFields` in the source). -/
structure PkgManagerFields where
  name : String
  installCommand : String
  runCommand : String
  lockFiles : List String
deriving DecidableEq

/-- A workspace member package: relative path plus optional name. -/
structure PkgEntry where
  path : String
  pkgName : Option String
deriving DecidableEq

/-- Workspace descriptor (`WorkspaceInfo` in the source): absolute root
directory and the ordered member list. -/
structure WorkspaceInfo where
  rootDir : String
  packages : List PkgEntry
deriving DecidableEq

/-- Build-system detector descriptor, as in `buck.ts`: identifier, name and
the marker (config) file names it searches for. -/
structure BuildToolSpec where
  id : String
  name : String
  configFiles : List String
deriving DecidableEq

/-- Confidence of a framework match (spec §4.5): dependency and config file
found → highest; config file only → medium; dependency only → lowest. -/
inductive Confidence where
  | lowest
  | medium
  | highest
deriving DecidableEq

/-- Numeric rank of a confidence level, for comparisons. -/
def Confidence.rank : Confidence → Nat
  | .lowest => 0
  | .medium => 1
  | .highest => 2

/-- Framework category (static-site generator vs. generic build tool vs.
other, non-conflicting categories). -/
inductive Category where
  | static_site_generator
  | build_tool
  | bundler
  | frontend_framework
deriving DecidableEq

/-- A detected framework match for one path. -/
structure DetectedFramework where
  id : String
  name : String
  category : Category
  accuracy : Confidence
deriving DecidableEq

/-- Compiled build settings entry (contents opaque to the staging logic). -/
structure Settings where
  buildCommand : Option String
  publishDirectory : Option String
deriving DecidableEq

/-- The frameworks result: mapping from package-relative path to the list of
detected frameworks, modelled as an insertion-ordered association list
(JS `Map`). -/
abbrev FrameworksMap := List (String × List DetectedFramework)

/-- Events emitted on the project's event channel, with their payloads,
mirroring the `Events` type of the source. -/
inductive Event where
  | detectPackageManager (d : Option PkgManagerFields)
  | detectedWorkspaceGlobs
  | detectWorkspaces (d : Option WorkspaceInfo)
  | detectBuildsystems (d : List BuildToolSpec)
  | detectFrameworks (d : FrameworksMap)
  | detectSettings (d : List Settings)
deriving DecidableEq

/-! ### Pure layer: upward search and the detector primitives -/

/-- A directory chain for `fs.findUp(names, \x7bcwd, stopAt\x7d)`: the list of
ancestor directories from `cwd` up to the `stopAt` boundary, nearest first,
each paired with the file names it contains. -/
abbrev DirChain := List (String × List String)

/-- Upward search: returns the path of the first of `names` found walking the
chain from the base directory upward (the `findUp` collaborator of §6). -/
def findUpChain (names : List String) (chain : DirChain) : Option String :=
  match chain with
  | [] => none
  | (dir, files) :: rest =>
    match names.find? (fun n => files.contains n) with
    | some n => some (dir ++ "/" ++ n)
    | none => findUpChain names rest

/-- One build-system detector run, from `buck.ts`: `findUp` over the
detector's config files bounded by the project root; the detector instance is
returned exactly when a marker was found. -/
def BuildToolSpec.detect (t : BuildToolSpec) (chain : DirChain) : Option BuildToolSpec :=
  match findUpChain t.configFiles chain with
  | some _ => some t
  | none => none

/-- The build-system stage body (source lines 221–223): run every registered
detector and keep the matches; `Promise.all` preserves registration order, so
the sequential map is a faithful model of the concurrent run. -/
def runBuildSystemDetectors (registry : List BuildToolSpec) (chain : DirChain) :
    List BuildToolSpec :=
  (registry.map (fun t => t.detect chain)).filterMap id

/-- Modelled from the spec: `detect-package-manager.ts` is not under `src/`;
§4.2 — evaluate the priority-ordered manager list and return the first whose
lockfile/config marker is found by the upward search, `none` when no marker
matched anywhere. -/
def detectPackageManagerFn (managers : List PkgManagerFields) (chain : DirChain) :
    Option PkgManagerFields :=
  managers.find? (fun m => (findUpChain m.lockFiles chain).isSome)

/-- Modelled from the spec: `detect-workspace.ts` is not under `src/`;
§4.3 — if the package manager is `null`, short-circuit to `null` without
running the workspace detection logic; otherwise run the manifest/glob scan
(abstracted as the `scan` input).  The boolean records whether the workspace
detection logic (manifest search and glob expansion) ran. -/
def detectWorkspacesFn (pm : Option PkgManagerFields) (scan : Option WorkspaceInfo) :
    Option WorkspaceInfo × Bool :=
  match pm with
  | none => (none, false)
  | some _ => (scan, true)

/-- Modelled from the spec: `frameworks/framework.ts` (`filterByRelevance`) is
not under `src/`; §4.5 — drop a match when a higher-confidence match of the
same category is present; among remaining matches of equal top confidence
rank a static-site generator above a generic build tool; otherwise preserve
registration order. -/
def filterByRelevance (detected : List DetectedFramework) : List DetectedFramework :=
  let survivors := detected.filter (fun m =>
    detected.all (fun m2 =>
      !(m2.category == m.category && decide (m.accuracy.rank < m2.accuracy.rank))))
  let top := survivors.foldl (fun a m => max a m.accuracy.rank) 0
  let topBuildTool := fun (m : DetectedFramework) =>
    m.accuracy.rank == top && m.category == Category.build_tool
  let hasTopSSG := survivors.any (fun m =>
    m.accuracy.rank == top && m.category == Category.static_site_generator)
  if hasTopSSG then
    survivors.filter (fun m => !(topBuildTool m)) ++ survivors.filter topBuildTool
  else survivors

/-! ### Pure layer: constructor path logic (source lines 90–105) -/

/-- A path, modelled as an absolute flag plus segments (no dot segments are
involved in the constructor logic we verify). -/
structure JPath where
  abs : Bool
  segs : List String
deriving DecidableEq

/-- The empty (relative) path, modelling the `''` fallback of `root || ''`. -/
def emptyJPath : JPath := ⟨false, []⟩

/-- Node-style two-argument `path.resolve(a, b)` against the process working
directory `cwd`: an absolute `b` wins; otherwise `b` is appended to `a` if
`a` is absolute, and to `cwd ++ a` otherwise. -/
def resolvePath (cwd a b : JPath) : JPath :=
  if b.abs then b
  else if a.abs then ⟨true, a.segs ++ b.segs⟩
  else ⟨cwd.abs, cwd.segs ++ a.segs ++ b.segs⟩

/-- `a` is a strict ancestor directory of `b`. -/
def strictAncestor (a b : JPath) : Bool :=
  a.abs && b.abs && (decide (a.segs ≠ b.segs)) && a.segs.isPrefixOf b.segs

/-- The root/baseDirectory part of the `Project` constructor state. -/
structure ProjectPaths where
  root : Option JPath
  baseDirectory : JPath
deriving DecidableEq

/-- The `Project` constructor (source lines 90–97): resolve the base
directory against `root || ''`, resolve the root against `fs.cwd`, then unset
the root when it equals the base directory.  `none` arguments model
`undefined`. -/
def projectConstruct (cwd : JPath) (baseDirectory : Option JPath) (root : Option JPath) :
    ProjectPaths :=
  let base := resolvePath cwd (root.getD emptyJPath) (baseDirectory.getD cwd)
  let r0 := root.map (fun r => resolvePath cwd cwd r)
  ⟨if r0 = some base then none else r0, base⟩

/-! ### Stateful layer: the Project stage accessors (source lines 176–302) -/

/-- Per-stage counters of how many times the stage's detection logic was
invoked (used to state the memoization claims). -/
structure Runs where
  pm : Nat
  ws : Nat
  bs : Nat
  fw : Nat
  st : Nat
deriving DecidableEq

/-- The mutable fields of a `Project` relevant to the staging pipeline, plus
the instrumentation needed to observe events, error reports and detection
runs. -/
structure ProjState where
  packageManager : Tri (Option PkgManagerFields)
  workspace : Tri (Option WorkspaceInfo)
  buildSystems : Tri (List BuildToolSpec)
  frameworks : Tri FrameworksMap
  settings : Tri (List Settings)
  events : List Event
  reports : Nat
  runs : Runs
deriving DecidableEq

/-- A fresh `Project` context: every stage unset, no events, no reports. -/
def initState : ProjState :=
  { packageManager := .unset
    workspace := .unset
    buildSystems := .unset
    frameworks := .unset
    settings := .unset
    events := []
    reports := 0
    runs := ⟨0, 0, 0, 0, 0⟩ }

/-- The asynchronous detection collaborators, as oracles: each is the outcome
(`ok` value or thrown error) the corresponding awaited call would produce. -/
structure Oracle where
  pmDetect : Except Err (Option PkgManagerFields)
  wsDetect : Except Err (Option WorkspaceInfo)
  bsDetect : Except Err (List BuildToolSpec)
  fwDetect : Option String → Except Err (List DetectedFramework)
  stDetect : Except Err (List Settings)

/-- `Project.detectPackageManager` (lines 176–189): return the stored field
unless it is `undefined`; otherwise run detection, store and emit on success;
the `catch` returns `null` without storing and without reporting. -/
def detectPackageManagerE (o : Oracle) (s : ProjState) :
    Except Err (Option PkgManagerFields) × ProjState :=
  match s.packageManager with
  | .set v => (.ok v, s)
  | .unset =>
    let s1 := { s with runs := { s.runs with pm := s.runs.pm + 1 } }
    match o.pmDetect with
    | .ok v =>
      (.ok v, { s1 with
                  packageManager := .set v
                  events := s1.events ++ [Event.detectPackageManager v] })
    | .error _ => (.ok none, s1)

/-- `Project.detectWorkspaces` (lines 192–209): cached unless `undefined`;
otherwise await package-manager detection (outside the `try`), then run
workspace detection; the `catch` reports and returns `null` without
storing. -/
def detectWorkspacesE (o : Oracle) (s : ProjState) :
    Except Err (Option WorkspaceInfo) × ProjState :=
  match s.workspace with
  | .set v => (.ok v, s)
  | .unset =>
    match detectPackageManagerE o s with
    | (.error e, s1) => (.error e, s1)
    | (.ok _, s1) =>
      let s2 := { s1 with runs := { s1.runs with ws := s1.runs.ws + 1 } }
      match o.wsDetect with
      | .ok v =>
        (.ok v, { s2 with
                    workspace := .set v
                    events := s2.events ++ [Event.detectWorkspaces v] })
      | .error _ => (.ok none, { s2 with reports := s2.reports + 1 })

/-- `Project.detectBuildSystem` (lines 212–231): cached unless `undefined`;
otherwise await workspace detection (outside the `try`), then run the
registered detectors; the `catch` reports and returns `[]` without
storing. -/
def detectBuildSystemE (o : Oracle) (s : ProjState) :
    Except Err (List BuildToolSpec) × ProjState :=
  match s.buildSystems with
  | .set v => (.ok v, s)
  | .unset =>
    match detectWorkspacesE o s with
    | (.error e, s1) => (.error e, s1)
    | (.ok _, s1) =>
      let s2 := { s1 with runs := { s1.runs with bs := s1.runs.bs + 1 } }
      match o.bsDetect with
      | .ok v =>
        (.ok v, { s2 with
                    buildSystems := .set v
                    events := s2.events ++ [Event.detectBuildsystems v] })
      | .error _ => (.ok [], { s2 with reports := s2.reports + 1 })

/-- `Project.detectFrameworksInPath` (lines 267–282): run all framework
detectors for one path and apply the relevance resolver; the `catch` returns
`[]` for that path (no report). -/
def pathResult (o : Oracle) (p : Option String) : List DetectedFramework :=
  match o.fwDetect p with
  | .ok l => filterByRelevance l
  | .error _ => []

/-- JS `Map.set`: replace in place when the key exists, append otherwise. -/
def setEntry (m : FrameworksMap) (k : String) (v : List DetectedFramework) :
    FrameworksMap :=
  if m.any (fun e => e.1 == k) then
    m.map (fun e => if e.1 == k then (k, v) else e)
  else m ++ [(k, v)]

/-- The values of the frameworks map, flattened (`[...values()].flat()`). -/
def flattenValues (m : FrameworksMap) : List DetectedFramework :=
  (m.map Prod.snd).flatten

/-- The workspace fan-out of `Project.detectFrameworks` (lines 245–254): one
`detectFrameworksInPath` evaluation per member package, keyed by the member's
relative path; `order` is the order in which the per-package completions
write their entries. -/
def fanOut (o : Oracle) (w : WorkspaceInfo) (order : List PkgEntry) : FrameworksMap :=
  order.foldl
    (fun m pkg => setEntry m pkg.path (pathResult o (some (w.rootDir ++ "/" ++ pkg.path))))
    []

/-- `Project.detectFrameworks` (lines 234–265): cached branch returns the
flattened stored map; otherwise await build-system detection, create the
map, fan out over workspace members (single `''` entry when the stored
workspace field is falsy), store, emit, and return the flattened values; the
`catch` reports and returns `null`.  The `catch` branch keys off the
build-system result only because every other operation in the `try` body is
total in this model. -/
def detectFrameworksE (o : Oracle) (s : ProjState) :
    Except Err (Option (List DetectedFramework)) × ProjState :=
  match s.frameworks with
  | .set m => (.ok (some (flattenValues m)), s)
  | .unset =>
    match detectBuildSystemE o s with
    | (.error _, s1) => (.ok none, { s1 with reports := s1.reports + 1 })
    | (.ok _, s1) =>
      let s2 := { s1 with runs := { s1.runs with fw := s1.runs.fw + 1 } }
      let m : FrameworksMap :=
        match s2.workspace with
        | .set (some w) => fanOut o w w.packages
        | _ => [("", pathResult o none)]
      (.ok (some (flattenValues m)),
        { s2 with
            frameworks := .set m
            events := s2.events ++ [Event.detectFrameworks m] })

/-- Reads the `settings` field as the source's `return this.settings` does
(`unset` never occurs at the read site, since the field is pre-stored). -/
def settingsValue (s : ProjState) : List Settings :=
  match s.settings with
  | .set v => v
  | .unset => []

/-- `Project.getBuildSettings` (lines 284–302): cached unless `undefined`;
otherwise pre-store `[]`, await framework detection, run the settings
compiler, store and emit on success; the `catch` reports; all non-cached
paths return the current `settings` field. -/
def getBuildSettingsE (o : Oracle) (s : ProjState) :
    Except Err (List Settings) × ProjState :=
  match s.settings with
  | .set v => (.ok v, s)
  | .unset =>
    let s0 := { s with settings := .set ([] : List Settings) }
    match detectFrameworksE o s0 with
    | (.error _, s1) => (.ok (settingsValue s1), { s1 with reports := s1.reports + 1 })
    | (.ok _, s1) =>
      let s2 := { s1 with runs := { s1.runs with st := s1.runs.st + 1 } }
      match o.stDetect with
      | .ok v =>
        (.ok v, { s2 with
                    settings := .set v
                    events := s2.events ++ [Event.detectSettings v] })
      | .error _ => (.ok (settingsValue s2), { s2 with reports := s2.reports + 1 })

/-! ### Concurrency model for first-call deduplication

Two logical callers run `Project.detectPackageManager` concurrently.  The
accessor body splits at its single `await`: the synchronous prefix checks the
guard and, when the field is still `undefined`, invokes the detection logic;
the continuation after the `await` stores the result, emits and returns. -/

/-- Execution phase of one caller of the accessor. -/
inductive Phase where
  | ready
  | awaiting (r : Option PkgManagerFields)
  | done (r : Option PkgManagerFields)
deriving DecidableEq

/-- Shared state for two concurrent callers: the `packageManager` field, the
number of detection-logic invocations, and both callers' phases. -/
structure ConcState where
  field : Tri (Option PkgManagerFields)
  runs : Nat
  taskA : Phase
  taskB : Phase
deriving DecidableEq

/-- Both callers ready on a fresh context. -/
def concInit : ConcState :=
  { field := .unset, runs := 0, taskA := .ready, taskB := .ready }

/-- One atomic segment of one caller: the guard segment (returning the cached
value, or invoking detection — which counts a run — and suspending), or the
post-`await` segment (store and finish). -/
def stepPhase (det : Option PkgManagerFields) (f : Tri (Option PkgManagerFields))
    (ph : Phase) (runs : Nat) : Tri (Option PkgManagerFields) × Phase × Nat :=
  match ph with
  | .ready =>
    match f with
    | .set v => (f, .done v, runs)
    | .unset => (f, .awaiting det, runs + 1)
  | .awaiting r => (.set r, .done r, runs)
  | .done r => (f, .done r, runs)

/-- Schedule step: `true` advances caller A, `false` advances caller B. -/
def concStep (det : Option PkgManagerFields) (s : ConcState) (who : Bool) : ConcState :=
  if who then
    let (f, ph, r) := stepPhase det s.field s.taskA s.runs
    { s with field := f, taskA := ph, runs := r }
  else
    let (f, ph, r) := stepPhase det s.field s.taskB s.runs
    { s with field := f, taskB := ph, runs := r }

/-- Run a schedule (list of caller choices) from a state. -/
def runSched (det : Option PkgManagerFields) (sched : List Bool) (s : ConcState) :
    ConcState :=
  sched.foldl (concStep det) s

/-! ### Helper lemmas: cached branches and totality of the accessors -/

lemma pmE_cached (o : Oracle) (s : ProjState) (v : Option PkgManagerFields)
    (h : s.packageManager = .set v) : detectPackageManagerE o s = (.ok v, s) := by
  unfold detectPackageManagerE
  rw [h]

lemma wsE_cached (o : Oracle) (s : ProjState) (v : Option WorkspaceInfo)
    (h : s.workspace = .set v) : detectWorkspacesE o s = (.ok v, s) := by
  unfold detectWorkspacesE
  rw [h]

lemma bsE_cached (o : Oracle) (s : ProjState) (v : List BuildToolSpec)
    (h : s.buildSystems = .set v) : detectBuildSystemE o s = (.ok v, s) := by
  unfold detectBuildSystemE
  rw [h]

lemma fwE_cached (o : Oracle) (s : ProjState) (m : FrameworksMap)
    (h : s.frameworks = .set m) :
    detectFrameworksE o s = (.ok (some (flattenValues m)), s) := by
  unfold detectFrameworksE
  rw [h]

lemma stE_cached (o : Oracle) (s : ProjState) (v : List Settings)
    (h : s.settings = .set v) : getBuildSettingsE o s = (.ok v, s) := by
  unfold getBuildSettingsE
  rw [h]

lemma pmE_total (o : Oracle) (s : ProjState) :
    ∃ v s2, detectPackageManagerE o s = (.ok v, s2) := by
  unfold detectPackageManagerE
  cases hpm : s.packageManager with
  | set v => exact ⟨v, s, rfl⟩
  | unset =>
    cases ho : o.pmDetect with
    | ok v => exact ⟨v, _, rfl⟩
    | error e => exact ⟨none, _, rfl⟩

lemma wsE_total (o : Oracle) (s : ProjState) :
    ∃ v s2, detectWorkspacesE o s = (.ok v, s2) := by
  unfold detectWorkspacesE
  cases hws : s.workspace with
  | set v => exact ⟨v, s, rfl⟩
  | unset =>
    obtain ⟨v, s2, hpm⟩ := pmE_total o s
    rw [hpm]
    cases ho : o.wsDetect with
    | ok v2 => exact ⟨v2, _, rfl⟩
    | error e => exact ⟨none, _, rfl⟩

lemma bsE_total (o : Oracle) (s : ProjState) :
    ∃ v s2, detectBuildSystemE o s = (.ok v, s2) := by
  unfold detectBuildSystemE
  cases hbs : s.buildSystems with
  | set v => exact ⟨v, s, rfl⟩
  | unset =>
    obtain ⟨v, s2, hws⟩ := wsE_total o s
    rw [hws]
    cases ho : o.bsDetect with
    | ok v2 => exact ⟨v2, _, rfl⟩
    | error e => exact ⟨[], _, rfl⟩

lemma fwE_total (o : Oracle) (s : ProjState) :
    ∃ v s2, detectFrameworksE o s = (.ok v, s2) := by
  unfold detectFrameworksE
  cases hfw : s.frameworks with
  | set m => exact ⟨some (flattenValues m), s, rfl⟩
  | unset =>
    obtain ⟨v, s2, hbs⟩ := bsE_total o s
    rw [hbs]
    exact ⟨_, _, rfl⟩

lemma stE_total (o : Oracle) (s : ProjState) :
    ∃ v s2, getBuildSettingsE o s = (.ok v, s2) := by
  unfold getBuildSettingsE
  cases hst : s.settings with
  | set v => exact ⟨v, s, rfl⟩
  | unset =>
    obtain ⟨v, s2, hfw⟩ :=
      fwE_total o { s with settings := .set ([] : List Settings) }
    simp only [hfw]
    cases ho : o.stDetect with
    | ok v2 => exact ⟨v2, _, rfl⟩
    | error e => exact ⟨_, _, rfl⟩

/-! ### Shared concrete instances for witnesses and counterexamples -/

/-- A concrete package-manager descriptor. -/
def npmPM : PkgManagerFields :=
  ⟨"npm", "npm install", "npm run", ["package-lock.json"]⟩

/-- A concrete two-member workspace. -/
def wsTwo : WorkspaceInfo :=
  ⟨"/repo", [⟨"pkg-a", some "a"⟩, ⟨"pkg-b", some "b"⟩]⟩

/-- An oracle whose package-manager detection throws and every other
detection succeeds trivially. -/
def badPMOracle : Oracle :=
  { pmDetect := .error "lockfile read failed"
    wsDetect := .ok none
    bsDetect := .ok []
    fwDetect := fun _ => .ok []
    stDetect := .ok [] }

/-- An oracle whose build-system detection throws and every other detection
succeeds. -/
def badBSOracle : Oracle :=
  { pmDetect := .ok (some npmPM)
    wsDetect := .ok none
    bsDetect := .error "marker search failed"
    fwDetect := fun _ => .ok []
    stDetect := .ok [] }

/-- An oracle where every stage's detection succeeds. -/
def allOkOracle : Oracle :=
  { pmDetect := .ok (some npmPM)
    wsDetect := .ok (some wsTwo)
    bsDetect := .ok []
    fwDetect := fun _ => .ok []
    stDetect := .ok [] }

/-- A state whose package-manager stage already ran and stored a value. -/
def pmSetState : ProjState := { initState with packageManager := .set (some npmPM) }

/-- C7: every one of the five stage accessors resolves to a value and never
rejects, for every oracle outcome of the external collaborators (including
throwing detection logic) and every project state. -/
theorem stage_accessors_never_reject (o : Oracle) (s : ProjState) :
    (∃ v s2, detectPackageManagerE o s = (.ok v, s2)) ∧
    (∃ v s2, detectWorkspacesE o s = (.ok v, s2)) ∧
    (∃ v s2, detectBuildSystemE o s = (.ok v, s2)) ∧
    (∃ v s2, detectFrameworksE o s = (.ok v, s2)) ∧
    (∃ v s2, getBuildSettingsE o s = (.ok v, s2)) :=
  ⟨pmE_total o s, wsE_total o s, bsE_total o s, fwE_total o s, stE_total o s⟩

/-- C1 counterexample: when the first run of the package-manager stage ends
in an internal error, the stage is still unset afterwards and a second call
re-executes the detection logic — it runs twice, not exactly once. -/
theorem memoization_fails_after_error_counterexample :
    (detectPackageManagerE badPMOracle initState).1 = .ok none ∧
    ((detectPackageManagerE badPMOracle initState).2).packageManager = Tri.unset ∧
    ((detectPackageManagerE badPMOracle initState).2).runs.pm = 1 ∧
    ((detectPackageManagerE badPMOracle
        ((detectPackageManagerE badPMOracle initState).2)).2).runs.pm = 2 := by
  refine ⟨rfl, rfl, rfl, rfl⟩

/-- C1 amended: once a stage's stored result is no longer unset, every later
call returns the cached result with the state unchanged (no re-detection, no
new events or reports); but a first run that ends in an internal error leaves
the package-manager stage unset, so a later call re-executes detection. -/
theorem memoization_amended (o : Oracle) (s : ProjState) :
    (∀ v, s.packageManager = .set v → detectPackageManagerE o s = (.ok v, s)) ∧
    (∀ v, s.workspace = .set v → detectWorkspacesE o s = (.ok v, s)) ∧
    (∀ v, s.buildSystems = .set v → detectBuildSystemE o s = (.ok v, s)) ∧
    (∀ m, s.frameworks = .set m →
      detectFrameworksE o s = (.ok (some (flattenValues m)), s)) ∧
    (∀ v, s.settings = .set v → getBuildSettingsE o s = (.ok v, s)) ∧
    (∀ e, o.pmDetect = .error e → s.packageManager = .unset →
      ((detectPackageManagerE o s).2).packageManager = .unset ∧
      ((detectPackageManagerE o s).2).runs.pm = s.runs.pm + 1 ∧
      ((detectPackageManagerE o ((detectPackageManagerE o s).2)).2).runs.pm
        = s.runs.pm + 2) := by
  refine ⟨fun v h => pmE_cached o s v h,
          fun v h => wsE_cached o s v h,
          fun v h => bsE_cached o s v h,
          fun m h => fwE_cached o s m h,
          fun v h => stE_cached o s v h,
          fun e he hu => ?_⟩
  unfold detectPackageManagerE
  rw [hu, he]
  simp only
  exact ⟨trivial, trivial, trivial⟩

/-- Witness for the amended memoization theorem at a concrete state whose
package-manager stage is stored, and a concrete erroring oracle. -/
theorem memoization_amended_witness :
    detectPackageManagerE badPMOracle pmSetState = (.ok (some npmPM), pmSetState) ∧
    ((detectPackageManagerE badPMOracle initState).2).runs.pm = 0 + 1 :=
  ⟨(memoization_amended badPMOracle pmSetState).1 (some npmPM) rfl,
   (((memoization_amended badPMOracle initState).2.2.2.2.2
      "lockfile read failed" rfl rfl).2.1)⟩

lemma fwE_completes (o : Oracle) (s : ProjState) (h : s.frameworks = .unset) :
    ∃ l s2, detectFrameworksE o s = (.ok (some l), s2) ∧ ∃ m, s2.frameworks = .set m := by
  unfold detectFrameworksE
  rw [h]
  obtain ⟨r, s1, hbs⟩ := bsE_total o s
  simp only [hbs]
  cases hw : s1.workspace with
  | set a =>
    cases a with
    | some w => exact ⟨_, _, rfl, _, rfl⟩
    | none => exact ⟨_, _, rfl, _, rfl⟩
  | unset => exact ⟨_, _, rfl, _, rfl⟩

/-- C2 counterexample: package-manager detection throws on a fresh context;
the accessor returns the degraded `null`, but it neither stores the `null`
no-op result (the stage stays unset) nor reports the error to the error
reporter (zero reports, where the claim requires exactly one). -/
theorem degraded_path_counterexample :
    (detectPackageManagerE badPMOracle initState).1 = .ok none ∧
    ((detectPackageManagerE badPMOracle initState).2).packageManager = Tri.unset ∧
    ((detectPackageManagerE badPMOracle initState).2).reports = 0 :=
  ⟨rfl, rfl, rfl⟩

/-- C2 amended: when a stage's detection logic throws, the accessor returns
the degraded result (`null` for package-manager and workspace, `[]` for
build-systems and settings) and downstream stages still run to completion;
the error is reported exactly once for the workspace, build-systems and
settings stages but not for package-manager; only the settings stage stores
its no-op result (`[]` is pre-stored before detection) — package-manager,
workspace and build-systems store nothing on error, leaving the stage unset;
if build-system detection throws, `detectBuildSystem` resolves to `[]` with
one report and `detectFrameworks` still completes and stores a frameworks
map. -/
theorem degraded_path_amended (o : Oracle) (s : ProjState) :
    (∀ e, o.pmDetect = .error e → s.packageManager = .unset →
      detectPackageManagerE o s
        = (.ok none, { s with runs := { s.runs with pm := s.runs.pm + 1 } })) ∧
    (∀ e p, o.wsDetect = .error e → s.workspace = .unset → s.packageManager = .set p →
      detectWorkspacesE o s
        = (.ok none,
           { s with
               reports := s.reports + 1
               runs := { s.runs with ws := s.runs.ws + 1 } })) ∧
    (∀ e w, o.bsDetect = .error e → s.buildSystems = .unset → s.workspace = .set w →
      detectBuildSystemE o s
        = (.ok [],
           { s with
               reports := s.reports + 1
               runs := { s.runs with bs := s.runs.bs + 1 } })) ∧
    (∀ e, o.bsDetect = .error e → s.frameworks = .unset →
      ∃ l s2, detectFrameworksE o s = (.ok (some l), s2) ∧
        ∃ m, s2.frameworks = .set m) ∧
    (∀ e m, o.stDetect = .error e → s.settings = .unset → s.frameworks = .set m →
      getBuildSettingsE o s
        = (.ok [],
           { s with
               settings := .set []
               reports := s.reports + 1
               runs := { s.runs with st := s.runs.st + 1 } })) := by
  refine ⟨fun e he hu => ?_, fun e p he hu hp => ?_, fun e w he hu hw => ?_,
          fun e he hf => fwE_completes o s hf, fun e m he hu hm => ?_⟩
  · unfold detectPackageManagerE
    rw [hu, he]
  · unfold detectWorkspacesE
    rw [hu, pmE_cached o s p hp, he]
    simp [hu]
  · unfold detectBuildSystemE
    rw [hu, wsE_cached o s w hw, he]
    simp [hu]
  · unfold getBuildSettingsE
    rw [hu]
    simp only [fwE_cached o { s with settings := .set ([] : List Settings) } m hm, he]
    rfl

/-- A state whose package-manager and workspace stages already stored their
(null-workspace) results. -/
def wsSetState : ProjState :=
  { initState with packageManager := .set (some npmPM), workspace := .set none }

/-- Witness for the amended degraded-path theorem: build-system detection
throws on a context with package manager and workspace stored; the stage
resolves to `[]` with one report and `detectFrameworks` still completes. -/
theorem degraded_path_amended_witness :
    detectBuildSystemE badBSOracle wsSetState
      = (.ok [], { wsSetState with reports := 1, runs := ⟨0, 0, 1, 0, 0⟩ }) ∧
    (∃ l s2, detectFrameworksE badBSOracle wsSetState = (.ok (some l), s2) ∧
      ∃ m, s2.frameworks = .set m) :=
  ⟨(degraded_path_amended badBSOracle wsSetState).2.2.1
      "marker search failed" none rfl rfl rfl,
   (degraded_path_amended badBSOracle wsSetState).2.2.2.1
      "marker search failed" rfl rfl⟩

/-- C3: calling the frameworks accessor on a fresh context triggers the
upstream stages and emits the stage-completed events in the order
package-manager, workspace, build-systems, frameworks, before the frameworks
result is produced. -/
theorem dependency_order_events (o : Oracle) (pmv : Option PkgManagerFields)
    (wsv : Option WorkspaceInfo) (bsv : List BuildToolSpec)
    (h1 : o.pmDetect = .ok pmv) (h2 : o.wsDetect = .ok wsv)
    (h3 : o.bsDetect = .ok bsv) :
    ∃ r s2 m, detectFrameworksE o initState = (.ok (some r), s2) ∧
      s2.events = [Event.detectPackageManager pmv, Event.detectWorkspaces wsv,
                   Event.detectBuildsystems bsv, Event.detectFrameworks m] ∧
      s2.packageManager = .set pmv ∧ s2.workspace = .set wsv ∧
      s2.buildSystems = .set bsv ∧ s2.frameworks = .set m := by
  unfold detectFrameworksE detectBuildSystemE detectWorkspacesE detectPackageManagerE
    initState
  simp only [h1, h2, h3]
  cases wsv with
  | some w => exact ⟨_, _, _, rfl, rfl, rfl, rfl, rfl, rfl⟩
  | none => exact ⟨_, _, _, rfl, rfl, rfl, rfl, rfl, rfl⟩

/-- Witness for the dependency-ordering theorem at a concrete all-successful
oracle. -/
theorem dependency_order_events_witness :
    ∃ r s2 m, detectFrameworksE allOkOracle initState = (.ok (some r), s2) ∧
      s2.events = [Event.detectPackageManager (some npmPM),
                   Event.detectWorkspaces (some wsTwo),
                   Event.detectBuildsystems [], Event.detectFrameworks m] ∧
      s2.packageManager = .set (some npmPM) ∧ s2.workspace = .set (some wsTwo) ∧
      s2.buildSystems = .set [] ∧ s2.frameworks = .set m :=
  dependency_order_events allOkOracle (some npmPM) (some wsTwo) [] rfl rfl rfl

/-- C6 counterexample: two callers both pass the unset guard before either
stores a result; the detection logic runs twice, not once — the context
deduplicates only completed results, there is no in-flight deduplication. -/
theorem concurrent_first_calls_counterexample :
    (runSched (some npmPM) [true, false, true, false] concInit).runs = 2 ∧
    (runSched (some npmPM) [true, false, true, false] concInit).taskA
      = .done (some npmPM) ∧
    (runSched (some npmPM) [true, false, true, false] concInit).taskB
      = .done (some npmPM) :=
  ⟨rfl, rfl, rfl⟩

/-- C6 amended: the accessor deduplicates only after a result is stored — a
caller whose guard check happens after another caller's store receives the
cached result without a new detection run (one run in total), but two callers
whose guard checks both precede any store each trigger their own detection
run (two runs), though both still receive the detection outcome. -/
theorem concurrent_first_calls_amended (det : Option PkgManagerFields) :
    ((runSched det [true, true, false] concInit).runs = 1 ∧
     (runSched det [true, true, false] concInit).taskA = .done det ∧
     (runSched det [true, true, false] concInit).taskB = .done det) ∧
    ((runSched det [true, false, true, false] concInit).runs = 2 ∧
     (runSched det [true, false, true, false] concInit).taskA = .done det ∧
     (runSched det [true, false, true, false] concInit).taskB = .done det) :=
  ⟨⟨rfl, rfl, rfl⟩, ⟨rfl, rfl, rfl⟩⟩

/-- An oracle computed from the spec-modelled detection functions on a
project with no lockfile: both detections resolve to `null`. -/
def noLockOracle : Oracle :=
  { pmDetect := .ok none
    wsDetect := .ok none
    bsDetect := .ok []
    fwDetect := fun _ => .ok []
    stDetect := .ok [] }

/-- C9: on a project where no package-manager lockfile or config marker is
found anywhere in the search chain, the package-manager detection resolves to
`null`, the workspace detection short-circuits to `null` without running its
detection logic (the ran-flag is `false`), and the workspace accessor stores
both `null` results without reporting any error. -/
theorem tri_state_no_lockfile (managers : List PkgManagerFields) (chain : DirChain)
    (scan : Option WorkspaceInfo) (o : Oracle)
    (h : ∀ m ∈ managers, findUpChain m.lockFiles chain = none)
    (h1 : o.pmDetect = .ok (detectPackageManagerFn managers chain))
    (h2 : o.wsDetect
      = .ok (detectWorkspacesFn (detectPackageManagerFn managers chain) scan).1) :
    detectPackageManagerFn managers chain = none ∧
    detectWorkspacesFn (detectPackageManagerFn managers chain) scan = (none, false) ∧
    ∃ s2, detectWorkspacesE o initState = (.ok none, s2) ∧ s2.reports = 0 ∧
      s2.packageManager = .set none ∧ s2.workspace = .set none := by
  have hpm : detectPackageManagerFn managers chain = none := by
    unfold detectPackageManagerFn
    rw [List.find?_eq_none]
    intro m hm
    simp [h m hm]
  have h1n : o.pmDetect = .ok none := by rw [h1, hpm]
  have h2n : o.wsDetect = .ok none := by rw [h2, hpm]; rfl
  refine ⟨hpm, by rw [hpm]; rfl, ?_⟩
  unfold detectWorkspacesE detectPackageManagerE initState
  simp only [h1n, h2n]
  exact ⟨_, rfl, rfl, rfl, rfl⟩

/-- Witness for the tri-state theorem: a single-manager registry and a chain
containing no lockfile. -/
theorem tri_state_no_lockfile_witness :
    detectPackageManagerFn [npmPM] [("/site", ["index.html"])] = none ∧
    detectWorkspacesFn (detectPackageManagerFn [npmPM] [("/site", ["index.html"])]) none
      = (none, false) ∧
    ∃ s2, detectWorkspacesE noLockOracle initState = (.ok none, s2) ∧ s2.reports = 0 ∧
      s2.packageManager = .set none ∧ s2.workspace = .set none :=
  tri_state_no_lockfile [npmPM] [("/site", ["index.html"])] none noLockOracle
    (by decide) rfl rfl

lemma findUpChain_isSome_iff (names : List String) (chain : DirChain) :
    (findUpChain names chain).isSome = true ↔
      ∃ d fs, (d, fs) ∈ chain ∧ ∃ n ∈ names, n ∈ fs := by
  induction chain with
  | nil => simp [findUpChain]
  | cons hd tl ih =>
    obtain ⟨d, fs⟩ := hd
    unfold findUpChain
    cases hfind : names.find? (fun n => fs.contains n) with
    | some n =>
      have hn : fs.contains n = true := List.find?_some hfind
      have hmem : n ∈ names := List.mem_of_find?_eq_some hfind
      simp only [Option.isSome_some, true_iff]
      exact ⟨d, fs, List.mem_cons_self _ _, n, hmem, by simpa using hn⟩
    | none =>
      simp only []
      rw [ih]
      constructor
      · rintro ⟨d2, fs2, hmem, n, hn, hnf⟩
        exact ⟨d2, fs2, List.mem_cons_of_mem _ hmem, n, hn, hnf⟩
      · rintro ⟨d2, fs2, hmem, n, hn, hnf⟩
        rcases List.mem_cons.mp hmem with heq | hmem2
        · exfalso
          have hdf : fs2 = fs := congrArg Prod.snd heq
          have hnone := List.find?_eq_none.mp hfind n hn
          exact hnone (by subst hdf; exact List.elem_iff.mpr hnf)
        · exact ⟨d2, fs2, hmem2, n, hn, hnf⟩

lemma runBuildSystemDetectors_eq (registry : List BuildToolSpec) (chain : DirChain) :
    runBuildSystemDetectors registry chain
      = registry.filter (fun t => (findUpChain t.configFiles chain).isSome) := by
  induction registry with
  | nil => rfl
  | cons t rest ih =>
    unfold runBuildSystemDetectors at ih ⊢
    simp only [List.map_cons, List.filterMap_cons, List.filter_cons]
    unfold BuildToolSpec.detect
    cases hf : findUpChain t.configFiles chain with
    | some p => simpa [hf] using ih
    | none => simpa [hf] using ih

/-- C8: a build-system detector is included in the result list if and only if
at least one of its marker files is found by the upward search over the
directory chain, and the result list is exactly the registry filtered in
registration order (the order is independent of detector completion order,
since `Promise.all` preserves input order). -/
theorem build_system_detection_iff (registry : List BuildToolSpec) (chain : DirChain) :
    runBuildSystemDetectors registry chain
      = registry.filter (fun t => (findUpChain t.configFiles chain).isSome) ∧
    ∀ t, t ∈ runBuildSystemDetectors registry chain ↔
      (t ∈ registry ∧ ∃ d fs, (d, fs) ∈ chain ∧ ∃ n ∈ t.configFiles, n ∈ fs) := by
  refine ⟨runBuildSystemDetectors_eq registry chain, fun t => ?_⟩
  rw [runBuildSystemDetectors_eq, List.mem_filter, findUpChain_isSome_iff]

/-- The Buck detector descriptor from `buck.ts`. -/
def buckTool : BuildToolSpec := ⟨"buck", "Buck", [".buckconfig", "BUCK"]⟩

/-- Witness for the build-system iff theorem: Buck is detected exactly when a
`BUCK` marker exists in the chain. -/
theorem build_system_detection_iff_witness :
    buckTool ∈ runBuildSystemDetectors [buckTool] [("/repo", ["BUCK"])] ∧
    runBuildSystemDetectors [buckTool] [("/repo", ["README"])] = [] :=
  ⟨((build_system_detection_iff [buckTool] [("/repo", ["BUCK"])]).2 buckTool).mpr
      ⟨by decide, "/repo", ["BUCK"], by decide, "BUCK", by decide, by decide⟩,
   by rw [(build_system_detection_iff [buckTool] [("/repo", ["README"])]).1]; decide⟩

lemma mem_filterByRelevance (l : List DetectedFramework) (m : DetectedFramework)
    (h : m ∈ filterByRelevance l) :
    m ∈ l ∧ ∀ m2 ∈ l, ¬(m2.category = m.category ∧ m.accuracy.rank < m2.accuracy.rank) := by
  simp only [filterByRelevance] at h
  have hs : m ∈ l.filter (fun m =>
      l.all (fun m2 =>
        !(m2.category == m.category && decide (m.accuracy.rank < m2.accuracy.rank)))) := by
    split at h
    · rcases List.mem_append.mp h with h2 | h2
      · exact (List.mem_filter.mp h2).1
      · exact (List.mem_filter.mp h2).1
    · exact h
  obtain ⟨hml, hall⟩ := List.mem_filter.mp hs
  refine ⟨hml, fun m2 hm2 hc => ?_⟩
  obtain ⟨hcat, hrank⟩ := hc
  have hone := List.all_eq_true.mp hall m2 hm2
  simp [hcat, hrank] at hone

/-- A generic bundler-category match at lowest confidence. -/
def viteBundler : DetectedFramework := ⟨"vite", "Vite", .bundler, .lowest⟩

/-- A static-site-generator match at highest confidence. -/
def eleventySSG : DetectedFramework := ⟨"eleventy", "Eleventy", .static_site_generator, .highest⟩

/-- A static-site-generator match at lowest confidence. -/
def gatsbyLow : DetectedFramework := ⟨"gatsby", "Gatsby", .static_site_generator, .lowest⟩

/-- A generic build-tool match at highest confidence. -/
def gruntBT : DetectedFramework := ⟨"grunt", "Grunt", .build_tool, .highest⟩

/-- C4: the relevance resolver never keeps a match when a higher-confidence
match of the same category is present; a lowest-confidence bundler match
together with a highest-confidence generator match both survive in
registration order; two generator-category matches of different confidence
resolve to the highest one only; and at equal top confidence a static-site
generator is ranked above a generic build tool. -/
theorem relevance_resolution :
    (∀ l m, m ∈ filterByRelevance l →
      m ∈ l ∧ ∀ m2 ∈ l, ¬(m2.category = m.category ∧ m.accuracy.rank < m2.accuracy.rank)) ∧
    filterByRelevance [viteBundler, eleventySSG] = [viteBundler, eleventySSG] ∧
    filterByRelevance [gatsbyLow, eleventySSG] = [eleventySSG] ∧
    filterByRelevance [gruntBT, eleventySSG] = [eleventySSG, gruntBT] :=
  ⟨fun l m h => mem_filterByRelevance l m h, by decide, by decide, by decide⟩

/-- Witness for the relevance-resolution theorem: the drop rule applied to
the two-generator scenario. -/
theorem relevance_resolution_witness :
    eleventySSG ∈ [gatsbyLow, eleventySSG] ∧
    ∀ m2 ∈ [gatsbyLow, eleventySSG],
      ¬(m2.category = eleventySSG.category ∧
        eleventySSG.accuracy.rank < m2.accuracy.rank) :=
  relevance_resolution.1 [gatsbyLow, eleventySSG] eleventySSG (by decide)

lemma setEntry_of_not_mem (m : FrameworksMap) (k : String) (v : List DetectedFramework)
    (h : m.any (fun e => e.1 == k) = false) : setEntry m k v = m ++ [(k, v)] := by
  unfold setEntry
  rw [h]
  simp

lemma foldl_setEntry (g : String → List DetectedFramework) :
    ∀ (order : List PkgEntry) (acc : FrameworksMap),
      (order.map (fun p => p.path)).Nodup →
      (∀ p ∈ order, acc.any (fun e => e.1 == p.path) = false) →
      order.foldl (fun m p => setEntry m p.path (g p.path)) acc
        = acc ++ order.map (fun p => (p.path, g p.path)) := by
  intro order
  induction order with
  | nil => intro acc _ _; simp
  | cons p rest ih =>
    intro acc hnd hacc
    obtain ⟨hnotin, hnd2⟩ := List.nodup_cons.mp hnd
    simp only [List.foldl_cons, List.map_cons]
    rw [setEntry_of_not_mem acc p.path (g p.path) (hacc p (List.mem_cons_self _ _))]
    rw [ih (acc ++ [(p.path, g p.path)]) hnd2 ?_]
    · simp
    · intro q hq
      rw [List.any_append]
      have h1 : acc.any (fun e => e.1 == q.path) = false :=
        hacc q (List.mem_cons_of_mem _ hq)
      have hne : p.path ≠ q.path := by
        intro hEq
        apply hnotin
        show p.path ∈ List.map (fun p => p.path) rest
        rw [hEq]
        exact List.mem_map_of_mem (fun r => r.path) hq
      simp [h1, hne]

lemma lookup_assoc_map (g : String → List DetectedFramework) :
    ∀ (order : List PkgEntry) (k : String),
      (order.map (fun p => p.path)).Nodup →
      k ∈ order.map (fun p => p.path) →
      List.lookup k (order.map (fun p => (p.path, g p.path))) = some (g k) := by
  intro order
  induction order with
  | nil => simp
  | cons p rest ih =>
    intro k hnd hk
    obtain ⟨hnotin, hnd2⟩ := List.nodup_cons.mp hnd
    by_cases hkp : k = p.path
    · subst hkp
      simp [List.lookup]
    · have hb : (k == p.path) = false := beq_eq_false_iff_ne.mpr hkp
      have hk2 : k ∈ rest.map (fun p => p.path) := by
        rcases List.mem_cons.mp hk with h | h
        · exact absurd h hkp
        · exact h
      simp only [List.map_cons, List.lookup, hb]
      exact ih k hnd2 hk2

lemma fanOut_eq (o : Oracle) (w : WorkspaceInfo) (order : List PkgEntry)
    (hnd : (order.map (fun p => p.path)).Nodup) :
    fanOut o w order
      = order.map (fun p =>
          (p.path, pathResult o (some (w.rootDir ++ "/" ++ p.path)))) := by
  unfold fanOut
  have h := foldl_setEntry
    (fun pa => pathResult o (some (w.rootDir ++ "/" ++ pa))) order [] hnd
    (by intro p hp; rfl)
  simpa using h

lemma bsE_preserves_ws (o : Oracle) (s : ProjState) (v : Option WorkspaceInfo)
    (h : s.workspace = .set v) :
    ∃ r s2, detectBuildSystemE o s = (.ok r, s2) ∧ s2.workspace = .set v := by
  unfold detectBuildSystemE
  cases hbs : s.buildSystems with
  | set b => exact ⟨b, s, rfl, h⟩
  | unset =>
    rw [wsE_cached o s v h]
    cases ho : o.bsDetect with
    | ok b => exact ⟨b, _, rfl, h⟩
    | error e => exact ⟨[], _, rfl, h⟩

/-- C5: after framework detection on a workspace project the stored mapping
has exactly one entry per member path (members with no match map to `[]`, via
`pathResult`, never a missing key), whatever order the per-path evaluations
complete in (any permutation of the member list yields the same lookups); on
a non-workspace project the mapping is the single root-path entry. -/
theorem workspace_fanout (o : Oracle) (s : ProjState) (w : WorkspaceInfo)
    (hf : s.frameworks = .unset) :
    (∀ order, order.Perm w.packages →
      (w.packages.map (fun p => p.path)).Nodup →
      (∀ p ∈ w.packages,
        List.lookup p.path (fanOut o w order)
          = some (pathResult o (some (w.rootDir ++ "/" ++ p.path)))) ∧
      (fanOut o w order).map Prod.fst = order.map (fun p => p.path)) ∧
    (s.workspace = .set (some w) →
      ∃ r s2, detectFrameworksE o s = (.ok (some r), s2) ∧
        s2.frameworks = .set (fanOut o w w.packages)) ∧
    (s.workspace = .set none →
      ∃ r s2, detectFrameworksE o s = (.ok (some r), s2) ∧
        s2.frameworks = .set [("", pathResult o none)]) := by
  refine ⟨fun order hperm hnd => ?_, fun hw => ?_, fun hw => ?_⟩
  · have hnd2 : (order.map (fun p => p.path)).Nodup :=
      ((hperm.map (fun p => p.path)).nodup_iff).mpr hnd
    constructor
    · intro p hp
      have hk : p.path ∈ order.map (fun p => p.path) :=
        List.mem_map_of_mem _ (hperm.mem_iff.mpr hp)
      rw [fanOut_eq o w order hnd2]
      exact lookup_assoc_map
        (fun pa => pathResult o (some (w.rootDir ++ "/" ++ pa))) order p.path hnd2 hk
    · rw [fanOut_eq o w order hnd2]
      simp [List.map_map]
  · unfold detectFrameworksE
    rw [hf]
    obtain ⟨r, s1, hbs, hw1⟩ := bsE_preserves_ws o s (some w) hw
    simp only [hbs, hw1]
    exact ⟨_, _, rfl, rfl⟩
  · unfold detectFrameworksE
    rw [hf]
    obtain ⟨r, s1, hbs, hw1⟩ := bsE_preserves_ws o s none hw
    simp only [hbs, hw1]
    exact ⟨_, _, rfl, rfl⟩

/-- A fresh context whose workspace stage stored the two-member workspace. -/
def wsStateTwo : ProjState :=
  { initState with
      packageManager := .set (some npmPM)
      workspace := .set (some wsTwo) }

/-- Witness for the workspace fan-out theorem: the two-member workspace with
trivially empty per-path detection; both member paths are present, mapped to
`[]`. -/
theorem workspace_fanout_witness :
    (∀ p ∈ wsTwo.packages,
      List.lookup p.path (fanOut allOkOracle wsTwo wsTwo.packages)
        = some (pathResult allOkOracle (some (wsTwo.rootDir ++ "/" ++ p.path)))) ∧
    ∃ r s2, detectFrameworksE allOkOracle wsStateTwo = (.ok (some r), s2) ∧
      s2.frameworks = .set (fanOut allOkOracle wsTwo wsTwo.packages) :=
  ⟨((workspace_fanout allOkOracle wsStateTwo wsTwo rfl).1 wsTwo.packages
      (List.Perm.refl _) (by decide)).1,
   (workspace_fanout allOkOracle wsStateTwo wsTwo rfl).2.1 rfl⟩

/-- C10 counterexample: with working directory `/c`, root `/c/r` and no base
directory argument, the constructor resolves the base directory to `/c` and
keeps root `/c/r` — a defined root that is *not* a strict ancestor of the
base directory (it is a descendant), refuting the ancestor-boundary claim. -/
theorem constructor_root_counterexample :
    (projectConstruct ⟨true, ["c"]⟩ none (some ⟨true, ["c", "r"]⟩)).root
      = some ⟨true, ["c", "r"]⟩ ∧
    (projectConstruct ⟨true, ["c"]⟩ none (some ⟨true, ["c", "r"]⟩)).baseDirectory
      = ⟨true, ["c"]⟩ ∧
    strictAncestor ⟨true, ["c", "r"]⟩ ⟨true, ["c"]⟩ = false := by
  refine ⟨by decide, by decide, by decide⟩

/-- C10 amended: after construction the base directory is always absolute
(given an absolute working directory); if the resolved root equals the
resolved base directory the root is unset; hence whenever the root is
defined it differs from the base directory — but it need not be an ancestor
of it. -/
theorem constructor_root_amended (cwd : JPath) (baseDirectory root : Option JPath)
    (hcwd : cwd.abs = true) :
    (projectConstruct cwd baseDirectory root).baseDirectory.abs = true ∧
    (∀ rr, (projectConstruct cwd baseDirectory root).root = some rr →
      rr ≠ (projectConstruct cwd baseDirectory root).baseDirectory) ∧
    (∀ r0, root = some r0 →
      resolvePath cwd cwd r0 = (projectConstruct cwd baseDirectory root).baseDirectory →
      (projectConstruct cwd baseDirectory root).root = none) := by
  unfold projectConstruct
  dsimp only
  refine ⟨?_, ?_, ?_⟩
  · unfold resolvePath
    split_ifs with h1 h2
    · exact h1
    · rfl
    · exact hcwd
  · intro rr h heq
    split at h
    · exact Option.noConfusion h
    · next hne =>
      apply hne
      rw [h, heq]
  · intro r0 hr hres
    subst hr
    rw [if_pos]
    exact congrArg some hres

/-- Witness for the amended constructor theorem: an absolute base argument
yields an absolute base directory, and a root resolving to the base
directory is unset. -/
theorem constructor_root_amended_witness :
    (projectConstruct ⟨true, ["c"]⟩ (some ⟨false, ["site"]⟩) none).baseDirectory.abs
      = true ∧
    (projectConstruct ⟨true, ["c"]⟩ none (some ⟨true, ["c"]⟩)).root = none :=
  ⟨(constructor_root_amended ⟨true, ["c"]⟩ (some ⟨false, ["site"]⟩) none rfl).1,
   (constructor_root_amended ⟨true, ["c"]⟩ none (some ⟨true, ["c"]⟩) rfl).2.2
      ⟨true, ["c"]⟩ rfl (by decide)⟩

/-- Witness for the amended concurrency theorem at the concrete npm
descriptor. -/
theorem concurrent_first_calls_amended_witness :
    (runSched (some npmPM) [true, true, false] concInit).runs = 1 ∧
    (runSched (some npmPM) [true, true, false] concInit).taskA = .done (some npmPM) ∧
    (runSched (some npmPM) [true, true, false] concInit).taskB = .done (some npmPM) :=
  (concurrent_first_calls_amended (some npmPM)).1

/-- Witness for the never-reject theorem at a concrete erroring oracle and a
fresh state. -/
theorem stage_accessors_never_reject_witness :
    (∃ v s2, detectPackageManagerE badPMOracle initState = (.ok v, s2)) ∧
    (∃ v s2, detectWorkspacesE badPMOracle initState = (.ok v, s2)) ∧
    (∃ v s2, detectBuildSystemE badPMOracle initState = (.ok v, s2)) ∧
    (∃ v s2, detectFrameworksE badPMOracle initState = (.ok v, s2)) ∧
    (∃ v s2, getBuildSettingsE badPMOracle initState = (.ok v, s2)) :=
  stage_accessors_never_reject badPMOracle initState
